import Mathlib

/-!
Verification of the dverf HackRF host driver (src/dverf/src/lib.rs).

The development shallow-embeds the crate's data model and operations:
the sample/byte codec, the control-protocol request builders and
response decoders, the transmit engine (staging buffer, free pool,
backlog FIFO, bounded in-flight window) and the receive engine
(bounded in-flight window).  Machine integers are modelled as Nat
(bytes are Nat values below 256, i8 values are Int in [-128, 127]);
panics are modelled as Except.error at the outer level, recoverable
errors as the Error type below; the asynchronous completion source is
an explicit event parameter (none = no completion available yet,
some ok = the oldest in-flight transfer completed with the given
status).
-/

/-! ## Sample/byte codec (mod internals) -/

/-- Two's-complement reading of a byte as an i8 value. -/
def toI8 (b : Nat) : Int :=
  if b < 128 then (b : Int) else (b : Int) - 256

/-- Two's-complement byte of an i8 value (the `as u8` cast). -/
def ofI8 (x : Int) : Nat :=
  (x % 256).toNat

/-- One IQ sample: Complex with i8 components, stored as re then im
(two bytes, I then Q). -/
structure Sample where
  re : Int
  im : Int
deriving DecidableEq, Repr

/-- internals::samples_as_bytes: reinterpret a sample slice as its
underlying bytes (re byte then im byte for each sample). -/
def samples_as_bytes (ss : List Sample) : List Nat :=
  (ss.map (fun s => [ofI8 s.re, ofI8 s.im])).flatten

/-- Helper for bytes_into_samples: reinterpret consecutive byte pairs
as samples. -/
def pairSamples : List Nat → List Sample
  | b0 :: b1 :: rest => ⟨toI8 b0, toI8 b1⟩ :: pairSamples rest
  | _ => []

/-- internals::bytes_into_samples: asserts the length is even
(panic modelled as Except.error), then reinterprets byte pairs as
samples. -/
def bytes_into_samples (vec : List Nat) : Except String (List Sample) :=
  if vec.length % 2 = 0 then
    .ok (pairSamples vec)
  else
    .error "Vec length must be multiply of 2"

/-! ## Error taxonomy and transport -/

/-- nusb::transfer::TransferError variants. -/
inductive TransferError
  | cancelled
  | stall
  | disconnected
  | fault
  | unknown
deriving DecidableEq, Repr

/-- The crate's Error enum: Transfer(e), Resp (invalid response),
Param(name) (invalid value for parameter). -/
inductive Error
  | transfer (e : TransferError)
  | resp
  | param (name : String)
deriving DecidableEq, Repr

/-- Fields of a vendor ControlIn request as built by control_in:
request code, index, value, expected length. -/
structure ControlInArgs where
  request : Nat
  index : Nat
  value : Nat
  length : Nat
deriving DecidableEq, Repr

/-- Fields of a vendor ControlOut request as built by control_out. -/
structure ControlOutArgs where
  request : Nat
  index : Nat
  value : Nat
  data : List Nat
deriving DecidableEq, Repr

/-! ## Control protocol operations -/

/-- u32::to_le_bytes. -/
def u32_to_le_bytes (n : Nat) : List Nat :=
  [n % 256, n / 256 % 256, n / 65536 % 256, n / 16777216 % 256]

/-- Recombine four little-endian bytes. -/
def u32_from_le (bs : List Nat) : Nat :=
  bs.foldr (fun b acc => b + 256 * acc) 0

/-- Device::set_freq: request code 16 (SetFreq), index 0, value 0,
8-byte payload LE(mhz) ++ LE(hz). -/
def set_freq (mhz hz : Nat) : ControlOutArgs :=
  { request := 16, index := 0, value := 0,
    data := u32_to_le_bytes mhz ++ u32_to_le_bytes hz }

/-- Device::set_lna_gain: builds the IN request
control_in(usb_if, SetLnaGain = 19, index := value, value := 0,
length := 1) and decodes the device response. -/
def set_lna_gain (value : Nat) (resp : Except TransferError (List Nat)) :
    ControlInArgs × Except Error Unit :=
  ({ request := 19, index := value, value := 0, length := 1 },
    match resp with
    | .error e => .error (.transfer e)
    | .ok res =>
      match res.head? with
      | none => .error .resp
      | some first => if first = 1 then .ok () else .error (.param "Lna Gain"))

/-- Device::set_vga_gain: builds the IN request
control_in(usb_if, SetVgaGain = 20, index := value, value := 0,
length := 1) and decodes the device response. -/
def set_vga_gain (value : Nat) (resp : Except TransferError (List Nat)) :
    ControlInArgs × Except Error Unit :=
  ({ request := 20, index := value, value := 0, length := 1 },
    match resp with
    | .error e => .error (.transfer e)
    | .ok res =>
      match res.head? with
      | none => .error .resp
      | some first => if first = 1 then .ok () else .error (.param "Vga Gain"))

/-! ## Board identity decoding -/

/-- BoardId: closed enum decoded with num_enum FromPrimitive; the
num_enum(default) attribute sends every unlisted byte to Unrecognized
(a unit variant with discriminant 0xFE). -/
inductive BoardId
  | jellybean
  | jawbreaker
  | hackrfOneOg
  | rad10
  | hackrfOneR9
  | unrecognized
deriving DecidableEq, Repr

/-- The FromPrimitive conversion for BoardId. -/
def BoardId.fromU8 (b : Nat) : BoardId :=
  if b = 0 then .jellybean
  else if b = 1 then .jawbreaker
  else if b = 2 then .hackrfOneOg
  else if b = 3 then .rad10
  else if b = 4 then .hackrfOneR9
  else .unrecognized

/-- BoardRev: closed enum decoded with num_enum FromPrimitive; the
num_enum(default) attribute sends every unlisted byte to Unrecognized
(a unit variant with discriminant 0xFE). -/
inductive BoardRev
  | old
  | r6
  | r7
  | r8
  | r9
  | r10
  | gsgR6
  | gsgR7
  | gsgR8
  | gsgR9
  | gsgR10
  | unrecognized
deriving DecidableEq, Repr

/-- The FromPrimitive conversion for BoardRev. -/
def BoardRev.fromU8 (b : Nat) : BoardRev :=
  if b = 0 then .old
  else if b = 1 then .r6
  else if b = 2 then .r7
  else if b = 3 then .r8
  else if b = 4 then .r9
  else if b = 5 then .r10
  else if b = 129 then .gsgR6
  else if b = 130 then .gsgR7
  else if b = 131 then .gsgR8
  else if b = 132 then .gsgR9
  else if b = 133 then .gsgR10
  else .unrecognized

/-- Device::board_id: IN request for 1 byte; an empty response is
Error::Resp, otherwise the first byte is decoded into BoardId. -/
def board_id (resp : Except TransferError (List Nat)) : Except Error BoardId :=
  match resp with
  | .error e => .error (.transfer e)
  | .ok res =>
    match res.head? with
    | none => .error .resp
    | some first => .ok (BoardId.fromU8 first)

/-- Device::board_rev: IN request for 1 byte; an empty response is
Error::Resp, otherwise the first byte is decoded into BoardRev. -/
def board_rev (resp : Except TransferError (List Nat)) : Except Error BoardRev :=
  match resp with
  | .error e => .error (.transfer e)
  | .ok res =>
    match res.head? with
    | none => .error .resp
    | some first => .ok (BoardRev.fromU8 first)

/-! ## Lossy UTF-8 decoding (String::from_utf8_lossy)

Output is the list of decoded Unicode code points; each maximal
subpart of an ill-formed sequence becomes one U+FFFD replacement
character, per the WHATWG recommendation that from_utf8_lossy
implements. -/

def replacementChar : Nat := 0xFFFD

def utf8Lossy : List Nat → List Nat
  | [] => []
  | b :: rest =>
    if b < 0x80 then
      b :: utf8Lossy rest
    else if b < 0xC2 then
      replacementChar :: utf8Lossy rest
    else if b ≤ 0xDF then
      match rest with
      | [] => [replacementChar]
      | b1 :: rest1 =>
        if 0x80 ≤ b1 ∧ b1 ≤ 0xBF then
          ((b - 0xC0) * 64 + (b1 - 0x80)) :: utf8Lossy rest1
        else
          replacementChar :: utf8Lossy (b1 :: rest1)
    else if b ≤ 0xEF then
      match rest with
      | [] => [replacementChar]
      | b1 :: rest1 =>
        if (b = 0xE0 ∧ 0xA0 ≤ b1 ∧ b1 ≤ 0xBF) ∨
            (0xE1 ≤ b ∧ b ≤ 0xEC ∧ 0x80 ≤ b1 ∧ b1 ≤ 0xBF) ∨
            (b = 0xED ∧ 0x80 ≤ b1 ∧ b1 ≤ 0x9F) ∨
            (0xEE ≤ b ∧ 0x80 ≤ b1 ∧ b1 ≤ 0xBF) then
          match rest1 with
          | [] => [replacementChar]
          | b2 :: rest2 =>
            if 0x80 ≤ b2 ∧ b2 ≤ 0xBF then
              ((b - 0xE0) * 4096 + (b1 - 0x80) * 64 + (b2 - 0x80)) :: utf8Lossy rest2
            else
              replacementChar :: utf8Lossy (b2 :: rest2)
        else
          replacementChar :: utf8Lossy (b1 :: rest1)
    else if b ≤ 0xF4 then
      match rest with
      | [] => [replacementChar]
      | b1 :: rest1 =>
        if (b = 0xF0 ∧ 0x90 ≤ b1 ∧ b1 ≤ 0xBF) ∨
            (0xF1 ≤ b ∧ b ≤ 0xF3 ∧ 0x80 ≤ b1 ∧ b1 ≤ 0xBF) ∨
            (b = 0xF4 ∧ 0x80 ≤ b1 ∧ b1 ≤ 0x8F) then
          match rest1 with
          | [] => [replacementChar]
          | b2 :: rest2 =>
            if 0x80 ≤ b2 ∧ b2 ≤ 0xBF then
              match rest2 with
              | [] => [replacementChar]
              | b3 :: rest3 =>
                if 0x80 ≤ b3 ∧ b3 ≤ 0xBF then
                  ((b - 0xF0) * 262144 + (b1 - 0x80) * 4096 +
                    (b2 - 0x80) * 64 + (b3 - 0x80)) :: utf8Lossy rest3
                else
                  replacementChar :: utf8Lossy (b3 :: rest3)
            else
              replacementChar :: utf8Lossy (b2 :: rest2)
        else
          replacementChar :: utf8Lossy (b1 :: rest1)
    else
      replacementChar :: utf8Lossy rest

/-- Device::version: IN request for up to 255 bytes; on transport
success the received bytes are decoded with from_utf8_lossy and
returned as Ok unconditionally (there is no emptiness check). -/
def version (resp : Except TransferError (List Nat)) : Except Error (List Nat) :=
  match resp with
  | .error e => .error (.transfer e)
  | .ok nullstr => .ok (utf8Lossy nullstr)

/-! ## Streaming constants -/

def TRANSFER_COUNT : Nat := 4

def TRANSFER_SIZE : Nat := 262144

/-! ## Transmit engine (Sink implementation)

State of the Device relevant to the transmit path.  The bulk-out
queue is modelled by the list of in-flight buffers (front = oldest
submission; nusb completes bulk transfers in submission order, and
Queue::pending() is the length of this list) together with a log of
every buffer handed to bulk_out.submit, in call order.  Free-pool
buffers are the reclaimed allocations; ResponseBuffer::reuse returns
them cleared, and Vec push/pop work at one end, modelled here by
cons/head. -/

structure TxState where
  current_buffer : List Nat
  free_buffers : List (List Nat)
  pending_buffers : List (List Nat)
  in_flight : List (List Nat)
  submitted : List (List Nat)
deriving DecidableEq, Repr

/-- Device::from_interface: all transmit state starts empty. -/
def initTx : TxState :=
  { current_buffer := [], free_buffers := [], pending_buffers := [],
    in_flight := [], submitted := [] }

/-- Device::submit_or_enqueue: pop a replacement staging buffer from
the free pool (or allocate fresh, i.e. empty), swap it with the
current buffer, then either push the packed buffer on the backlog
(when the window is full) or submit it. -/
def submit_or_enqueue (s : TxState) : TxState :=
  let replace_buffer := s.free_buffers.headD []
  let buf := s.current_buffer
  let s1 : TxState := { s with current_buffer := replace_buffer,
                               free_buffers := s.free_buffers.tail }
  if s1.in_flight.length = TRANSFER_COUNT then
    { s1 with pending_buffers := s1.pending_buffers ++ [buf] }
  else
    { s1 with in_flight := s1.in_flight ++ [buf],
              submitted := s1.submitted ++ [buf] }

/-- One iteration of the byte loop in start_send's Greater branch:
push a byte into the staging buffer and submit-or-enqueue when it
reaches full capacity. -/
def push_byte (s : TxState) (b : Nat) : TxState :=
  let s1 : TxState := { s with current_buffer := s.current_buffer ++ [b] }
  if s1.current_buffer.length = TRANSFER_SIZE then submit_or_enqueue s1 else s1

/-- Device::start_send: view the chunk as bytes, assert the readiness
precondition (panic modelled as Except.error), then pack the bytes by
comparing the chunk length with the staging buffer's remaining
capacity. -/
def start_send (s : TxState) (chunk : List Sample) : Except String TxState :=
  let bytes := samples_as_bytes chunk
  if s.in_flight.length < TRANSFER_COUNT then
    let required := TRANSFER_SIZE - s.current_buffer.length
    match compare bytes.length required with
    | .lt => .ok { s with current_buffer := s.current_buffer ++ bytes }
    | .eq => .ok (submit_or_enqueue { s with current_buffer := s.current_buffer ++ bytes })
    | .gt => .ok (bytes.foldl push_byte s)
  else
    .error "Sink is not ready to accept new items"

/-- Result of one poll of the transmit engine. -/
inductive TxPoll
  | pending
  | readyOk
  | readyErr
deriving DecidableEq, Repr

/-- Device::poll_completion.  The event argument stands for the
bulk-out completion source: none = no completion available (the
ready macro suspends), some ok = the oldest in-flight transfer
completed with the given status.  On success the buffer is reclaimed
into the free pool and the head of the backlog, if any, is submitted
(waking the task and returning Pending). -/
def poll_completion (s : TxState) (ev : Option Bool) : TxState × TxPoll :=
  if s.in_flight.length = 0 then
    (s, .readyOk)
  else
    match ev with
    | none => (s, .pending)
    | some false => ({ s with in_flight := s.in_flight.tail }, .readyErr)
    | some true =>
      let s1 : TxState := { s with in_flight := s.in_flight.tail,
                                   free_buffers := [] :: s.free_buffers }
      match s1.pending_buffers with
      | [] => (s1, .readyOk)
      | buf :: rest =>
        ({ s1 with pending_buffers := rest,
                   in_flight := s1.in_flight ++ [buf],
                   submitted := s1.submitted ++ [buf] }, .pending)

/-- Device::poll_ready: ready as soon as the window has a free slot,
otherwise drive poll_completion. -/
def poll_ready (s : TxState) (ev : Option Bool) : TxState × TxPoll :=
  if s.in_flight.length < TRANSFER_COUNT then (s, .readyOk)
  else poll_completion s ev

/-- Device::poll_flush: submit-or-enqueue a partially filled staging
buffer, then drive poll_completion. -/
def poll_flush (s : TxState) (ev : Option Bool) : TxState × TxPoll :=
  let s1 := if s.current_buffer ≠ [] ∧ s.current_buffer.length < TRANSFER_SIZE then
    submit_or_enqueue s
  else
    s
  poll_completion s1 ev

/-- Sink::poll_close: unconditional panic (modelled as Except.error). -/
def poll_close : Except String Unit :=
  .error "Instead of closing the sink, just drop or destruct `Device`"

/-! ### Driving the poll functions

A caller that honors the contract polls poll_ready until Ready before
each start_send and polls poll_flush until Ready to flush; the fuel
argument is the number of polls, and completions are always available
and successful while driving. -/

/-- Repeatedly poll poll_ready (completions available and successful)
until it stops returning Pending. -/
def ready_loop : Nat → TxState → TxState × TxPoll
  | 0, s => (s, .pending)
  | fuel + 1, s =>
    match (poll_ready s (some true)).2 with
    | .pending => ready_loop fuel (poll_ready s (some true)).1
    | r => ((poll_ready s (some true)).1, r)

/-- Repeatedly poll poll_flush (completions available and successful)
until it stops returning Pending. -/
def flush_loop : Nat → TxState → TxState × TxPoll
  | 0, s => (s, .pending)
  | fuel + 1, s =>
    match (poll_flush s (some true)).2 with
    | .pending => flush_loop fuel (poll_flush s (some true)).1
    | r => ((poll_flush s (some true)).1, r)

/-- Feed a sequence of sample chunks to the sink, driving poll_ready
to Ready before each start_send (the readiness precondition). -/
def accept_all : TxState → List (List Sample) → Except String TxState
  | s, [] => .ok s
  | s, c :: cs =>
    match start_send (ready_loop (s.pending_buffers.length + 1) s).1 c with
    | .ok s2 => accept_all s2 cs
    | .error e => .error e

/-- All bytes currently owned by the transmit path, in accepted
order: bytes already handed to bulk_out.submit, then the backlog,
then the staging buffer. -/
def accepted_bytes (s : TxState) : List Nat :=
  s.submitted.flatten ++ s.pending_buffers.flatten ++ s.current_buffer

/-- Transmit-state invariant maintained by the engine: the window is
bounded, the backlog is non-empty only while the window is full, the
staging buffer is never at full capacity between operations, and all
free-pool buffers are cleared. -/
def TxInv (s : TxState) : Prop :=
  s.in_flight.length ≤ TRANSFER_COUNT ∧
  (s.pending_buffers ≠ [] → s.in_flight.length = TRANSFER_COUNT) ∧
  s.current_buffer.length < TRANSFER_SIZE ∧
  (∀ b ∈ s.free_buffers, b = [])

/-! ## Receive engine (Stream implementation)

Only the in-flight count of the bulk-in queue is relevant to the
window claims; the completion source is again an explicit event. -/

structure RxState where
  in_flight : Nat
deriving DecidableEq, Repr

def rxInit : RxState := ⟨0⟩

/-- The top-up loop at the head of Device::poll_next: submit fresh
transfer requests until the in-flight count reaches TRANSFER_COUNT. -/
def rx_top_up (s : RxState) : RxState :=
  if s.in_flight < TRANSFER_COUNT then ⟨TRANSFER_COUNT⟩ else s

inductive RxEvent
  | noCompletion
  | completionOk
  | completionErr
deriving DecidableEq, Repr

inductive RxPoll
  | pending
  | readyBatch
  | readyErr
deriving DecidableEq, Repr

/-- Device::poll_next: top up the window, then await a completion
(consuming it from the queue); on success the buffer is taken,
a replacement transfer of the same target size is submitted
immediately, and the batch is delivered. -/
def poll_next (s : RxState) (ev : RxEvent) : RxState × RxPoll :=
  let s1 := rx_top_up s
  match ev with
  | .noCompletion => (s1, .pending)
  | .completionErr => (⟨s1.in_flight - 1⟩, .readyErr)
  | .completionOk => (⟨s1.in_flight - 1 + 1⟩, .readyBatch)

/-- Fold a sequence of polls of the receive engine. -/
def run_rx (s : RxState) (evs : List RxEvent) : RxState :=
  evs.foldl (fun t ev => (poll_next t ev).1) s

/-- State with a full transmit window, for the contract-violation
witness. -/
def fourFull : TxState :=
  { current_buffer := [], free_buffers := [], pending_buffers := [],
    in_flight := [[1, 2], [3, 4], [5, 6], [7, 8]],
    submitted := [[1, 2], [3, 4], [5, 6], [7, 8]] }

/-- A transmit state with two full buffers in flight on the bulk-out
queue, an empty staging buffer and an empty backlog: reached from the
initial state by accepting two exactly-TRANSFER_SIZE chunks with the
readiness precondition honored, before any completion is reaped. -/
def twoInFlight : TxState :=
  { current_buffer := [], free_buffers := [], pending_buffers := [],
    in_flight := [List.replicate TRANSFER_SIZE 1, List.replicate TRANSFER_SIZE 2],
    submitted := [List.replicate TRANSFER_SIZE 1, List.replicate TRANSFER_SIZE 2] }

/-! ## Codec lemmas -/

theorem ofI8_toI8 {b : Nat} (h : b < 256) : ofI8 (toI8 b) = b := by
  simp only [toI8, ofI8]
  split <;> omega

theorem samples_as_bytes_cons (x : Sample) (l : List Sample) :
    samples_as_bytes (x :: l) = ofI8 x.re :: ofI8 x.im :: samples_as_bytes l := by
  simp [samples_as_bytes]

theorem samples_as_bytes_pairSamples :
    ∀ bs : List Nat, (∀ b ∈ bs, b < 256) → bs.length % 2 = 0 →
      samples_as_bytes (pairSamples bs) = bs
  | [], _, _ => rfl
  | [b], _, h2 => by simp at h2
  | b0 :: b1 :: rest, hb, h2 => by
    have ih := samples_as_bytes_pairSamples rest
      (fun b hm => hb b (by simp [hm]))
      (by simp only [List.length_cons] at h2 ⊢; omega)
    have h0 : b0 < 256 := hb b0 (by simp)
    have h1 : b1 < 256 := hb b1 (by simp)
    simp only [pairSamples, samples_as_bytes_cons, ih, ofI8_toI8 h0, ofI8_toI8 h1]

/-- Claim C4: for every even-length byte vector, bytes_into_samples
succeeds and samples_as_bytes of the result is the original vector. -/
theorem codec_round_trip (bs : List Nat) (heven : bs.length % 2 = 0)
    (hbyte : ∀ b ∈ bs, b < 256) :
    ∃ ss, bytes_into_samples bs = .ok ss ∧ samples_as_bytes ss = bs :=
  ⟨pairSamples bs, by simp [bytes_into_samples, heven],
    samples_as_bytes_pairSamples bs hbyte heven⟩

/-- Witness for codec_round_trip at the byte vector [2, 255, 128, 0]. -/
theorem codec_round_trip_witness :
    ([2, 255, 128, 0] : List Nat).length % 2 = 0 ∧
    (∀ b ∈ ([2, 255, 128, 0] : List Nat), b < 256) ∧
    ∃ ss, bytes_into_samples [2, 255, 128, 0] = .ok ss ∧
      samples_as_bytes ss = [2, 255, 128, 0] :=
  ⟨by decide, by decide, codec_round_trip [2, 255, 128, 0] (by decide) (by decide)⟩

/-! ## Board identity claims -/

/-- Claim C5, counterexample: two distinct unknown bytes decode to the
same Unrecognized value, for BoardId and BoardRev alike, so no
function can recover the raw byte from the decoded value. -/
theorem board_raw_byte_not_preserved :
    BoardId.fromU8 16 = BoardId.unrecognized ∧
    BoardId.fromU8 17 = BoardId.unrecognized ∧
    BoardRev.fromU8 16 = BoardRev.unrecognized ∧
    BoardRev.fromU8 17 = BoardRev.unrecognized ∧
    ¬(∃ g : BoardId → Nat, g (BoardId.fromU8 16) = 16 ∧ g (BoardId.fromU8 17) = 17) ∧
    ¬(∃ g : BoardRev → Nat, g (BoardRev.fromU8 16) = 16 ∧ g (BoardRev.fromU8 17) = 17) := by
  refine ⟨by decide, by decide, by decide, by decide, ?_, ?_⟩
  · rintro ⟨g, h16, h17⟩
    rw [show BoardId.fromU8 16 = BoardId.unrecognized from by decide] at h16
    rw [show BoardId.fromU8 17 = BoardId.unrecognized from by decide] at h17
    omega
  · rintro ⟨g, h16, h17⟩
    rw [show BoardRev.fromU8 16 = BoardRev.unrecognized from by decide] at h16
    rw [show BoardRev.fromU8 17 = BoardRev.unrecognized from by decide] at h17
    omega

/-- Claim C5, amended: every byte outside the known discriminant sets
decodes to the Unrecognized fallback variant (which is a unit variant
and does not carry the byte). -/
theorem board_unknown_byte_unrecognized (b : Nat)
    (hId : ¬ b ∈ ([0, 1, 2, 3, 4] : List Nat))
    (hRev : ¬ b ∈ ([0, 1, 2, 3, 4, 5, 129, 130, 131, 132, 133] : List Nat)) :
    BoardId.fromU8 b = BoardId.unrecognized ∧
    BoardRev.fromU8 b = BoardRev.unrecognized := by
  simp only [List.mem_cons, List.not_mem_nil, or_false, not_or] at hId hRev
  obtain ⟨i0, i1, i2, i3, i4⟩ := hId
  obtain ⟨r0, r1, r2, r3, r4, r5, r6, r7, r8, r9, r10⟩ := hRev
  constructor
  · simp [BoardId.fromU8, i0, i1, i2, i3, i4]
  · simp [BoardRev.fromU8, r0, r1, r2, r3, r4, r5, r6, r7, r8, r9, r10]

/-- Witness for board_unknown_byte_unrecognized at byte 99. -/
theorem board_unknown_byte_unrecognized_witness :
    ¬ (99 : Nat) ∈ ([0, 1, 2, 3, 4] : List Nat) ∧
    ¬ (99 : Nat) ∈ ([0, 1, 2, 3, 4, 5, 129, 130, 131, 132, 133] : List Nat) ∧
    (BoardId.fromU8 99 = BoardId.unrecognized ∧
      BoardRev.fromU8 99 = BoardRev.unrecognized) :=
  ⟨by decide, by decide, board_unknown_byte_unrecognized 99 (by decide) (by decide)⟩

/-! ## Contract violations (transmit) -/

/-- Claim C6: start_send with the window full is the readiness-contract
panic, and poll_close panics unconditionally; neither is a recoverable
Error value. -/
theorem contract_violation_aborts (s : TxState) (chunk : List Sample)
    (h : TRANSFER_COUNT ≤ s.in_flight.length) :
    start_send s chunk = .error "Sink is not ready to accept new items" ∧
    poll_close = .error "Instead of closing the sink, just drop or destruct `Device`" := by
  refine ⟨?_, rfl⟩
  simp only [start_send]
  rw [if_neg (Nat.not_lt.mpr h)]

/-- Witness for contract_violation_aborts at a concrete full-window
state. -/
theorem contract_violation_aborts_witness :
    TRANSFER_COUNT ≤ fourFull.in_flight.length ∧
    (start_send fourFull [] = .error "Sink is not ready to accept new items" ∧
      poll_close = .error "Instead of closing the sink, just drop or destruct `Device`") :=
  ⟨by decide, contract_violation_aborts fourFull [] (by decide)⟩

/-! ## Gain setter claims -/

/-- Claim C7, counterexample: set_lna_gain 40 puts 40 in the index
field of the control request; the value field is 0, not 40. -/
theorem gain_value_field_counterexample :
    (set_lna_gain 40 (.ok [1])).1.index = 40 ∧
    (set_lna_gain 40 (.ok [1])).1.value = 0 ∧
    (set_lna_gain 40 (.ok [1])).1.value ≠ 40 ∧
    (set_vga_gain 40 (.ok [1])).1.index = 40 ∧
    (set_vga_gain 40 (.ok [1])).1.value = 0 := by
  refine ⟨rfl, rfl, by decide, rfl, rfl⟩

/-- Claim C7, amended: the gain setters issue an IN request with the
gain in the index field (value field 0, expecting 1 byte, request
codes 19 and 20); a first response byte of 1 is Ok, any other first
byte is Param with the corresponding name, an empty response is Resp,
and a transport error propagates. -/
theorem gain_setters_spec (v b : Nat) (rest : List Nat) (e : TransferError) :
    (set_lna_gain v (.ok (b :: rest))).1 = ⟨19, v, 0, 1⟩ ∧
    (set_vga_gain v (.ok (b :: rest))).1 = ⟨20, v, 0, 1⟩ ∧
    (set_lna_gain v (.ok (b :: rest))).2 =
      (if b = 1 then .ok () else .error (.param "Lna Gain")) ∧
    (set_vga_gain v (.ok (b :: rest))).2 =
      (if b = 1 then .ok () else .error (.param "Vga Gain")) ∧
    (set_lna_gain v (.ok [])).2 = .error .resp ∧
    (set_vga_gain v (.ok [])).2 = .error .resp ∧
    (set_lna_gain v (.error e)).2 = .error (.transfer e) ∧
    (set_vga_gain v (.error e)).2 = .error (.transfer e) :=
  ⟨rfl, rfl, rfl, rfl, rfl, rfl, rfl, rfl⟩

/-! ## set_freq wire encoding -/

/-- Claim C9, counterexample: the payload of set_freq 446 68750 is
BE 01 00 00 8E 0C 01 00 — the fifth byte is 0x8E (68750 = 0x10C8E),
not the 0xCE the claim states. -/
theorem set_freq_scenario_byte_counterexample :
    (set_freq 446 68750).data = [0xBE, 0x01, 0x00, 0x00, 0x8E, 0x0C, 0x01, 0x00] ∧
    (set_freq 446 68750).data ≠ [0xBE, 0x01, 0x00, 0x00, 0xCE, 0x0C, 0x01, 0x00] := by
  refine ⟨by decide, by decide⟩

/-- Claim C9, amended: set_freq sends request code 16 with an 8-byte
payload, little-endian u32 mhz then little-endian u32 hz; in
particular set_freq 446 68750 yields payload BE 01 00 00 8E 0C 01 00. -/
theorem set_freq_encoding (mhz hz : Nat)
    (hm : mhz < 4294967296) (hh : hz < 4294967296) :
    (set_freq mhz hz).request = 16 ∧
    (set_freq mhz hz).data.length = 8 ∧
    u32_from_le ((set_freq mhz hz).data.take 4) = mhz ∧
    u32_from_le ((set_freq mhz hz).data.drop 4) = hz ∧
    set_freq 446 68750 =
      { request := 16, index := 0, value := 0,
        data := [0xBE, 0x01, 0x00, 0x00, 0x8E, 0x0C, 0x01, 0x00] } := by
  refine ⟨rfl, rfl, ?_, ?_, by decide⟩
  · simp only [set_freq, u32_to_le_bytes, u32_from_le, List.cons_append,
      List.nil_append, List.take_succ_cons, List.take_zero, List.foldr_cons,
      List.foldr_nil]
    omega
  · simp only [set_freq, u32_to_le_bytes, u32_from_le, List.cons_append,
      List.nil_append, List.drop_succ_cons, List.drop_zero, List.foldr_cons,
      List.foldr_nil]
    omega

/-- Witness for set_freq_encoding at the spec scenario (446, 68750). -/
theorem set_freq_encoding_witness :
    (446 : Nat) < 4294967296 ∧ (68750 : Nat) < 4294967296 ∧
    ((set_freq 446 68750).request = 16 ∧
      (set_freq 446 68750).data.length = 8 ∧
      u32_from_le ((set_freq 446 68750).data.take 4) = 446 ∧
      u32_from_le ((set_freq 446 68750).data.drop 4) = 68750 ∧
      set_freq 446 68750 =
        { request := 16, index := 0, value := 0,
          data := [0xBE, 0x01, 0x00, 0x00, 0x8E, 0x0C, 0x01, 0x00] }) :=
  ⟨by decide, by decide, set_freq_encoding 446 68750 (by decide) (by decide)⟩

/-! ## version() totality -/

set_option maxRecDepth 4000 in
/-- Claim C10: version returns Ok of the lossy UTF-8 decode of exactly
the bytes received for every successful transport response — Ok of the
empty string on an empty response, never Error::Resp — unlike board_id,
which maps an empty response to Error::Resp. -/
theorem version_never_invalid_response (bs : List Nat) (e : TransferError) :
    version (.ok bs) = .ok (utf8Lossy bs) ∧
    (version (.ok bs)).isOk = true ∧
    version (.ok []) = .ok [] ∧
    version (.error e) = .error (.transfer e) ∧
    version (.ok ([49, 46, 48, 46, 48] ++ List.replicate 250 0)) =
      .ok ([49, 46, 48, 46, 48] ++ List.replicate 250 0) ∧
    board_id (.ok []) = .error .resp := by
  have h : utf8Lossy ([49, 46, 48, 46, 48] ++ List.replicate 250 0) =
      [49, 46, 48, 46, 48] ++ List.replicate 250 0 := by decide
  exact ⟨rfl, rfl, rfl, rfl, by rw [version, h], rfl⟩

/-! ## Receive window claims -/

theorem rx_top_up_in_flight (s : RxState) (h : s.in_flight ≤ TRANSFER_COUNT) :
    (rx_top_up s).in_flight = TRANSFER_COUNT := by
  simp only [rx_top_up]
  split
  · rfl
  · next h2 => omega

theorem poll_next_in_flight (s : RxState) (ev : RxEvent)
    (h : s.in_flight ≤ TRANSFER_COUNT) :
    (poll_next s ev).1.in_flight =
      (match (poll_next s ev).2 with
        | .readyErr => TRANSFER_COUNT - 1
        | _ => TRANSFER_COUNT) := by
  have htop := rx_top_up_in_flight s h
  cases ev <;> simp [poll_next, htop, TRANSFER_COUNT]

theorem poll_next_bound (s : RxState) (ev : RxEvent)
    (h : s.in_flight ≤ TRANSFER_COUNT) :
    (poll_next s ev).1.in_flight ≤ TRANSFER_COUNT := by
  have htop := rx_top_up_in_flight s h
  cases ev <;> simp [poll_next, htop, TRANSFER_COUNT]

theorem run_rx_bound :
    ∀ (evs : List RxEvent) (s : RxState), s.in_flight ≤ TRANSFER_COUNT →
      (run_rx s evs).in_flight ≤ TRANSFER_COUNT
  | [], _, h => h
  | ev :: evs, s, h => run_rx_bound evs (poll_next s ev).1 (poll_next_bound s ev h)

/-- Claim C3: starting from the initial receive state, the in-flight
bulk-in count never exceeds TRANSFER_COUNT across any sequence of
polls, and at any poll that suspends or delivers a batch the count is
exactly TRANSFER_COUNT (an error delivery leaves it one below, topped
back up by the next poll). -/
theorem rx_window_invariant (evs : List RxEvent) (ev : RxEvent) :
    (run_rx rxInit evs).in_flight ≤ TRANSFER_COUNT ∧
    (poll_next (run_rx rxInit evs) ev).1.in_flight =
      (match (poll_next (run_rx rxInit evs) ev).2 with
        | .readyErr => TRANSFER_COUNT - 1
        | _ => TRANSFER_COUNT) :=
  ⟨run_rx_bound evs rxInit (by decide),
    poll_next_in_flight (run_rx rxInit evs) ev (run_rx_bound evs rxInit (by decide))⟩

/-! ## poll_flush returning Ready with transfers still in flight -/

/-- Claim C2 (code bug): from twoInFlight, one poll of poll_flush with
a successful completion available returns Ready(Ok) while a transfer
is still in flight — poll_completion reports done after reaping a
single completion whenever the backlog is empty, so flush does not
wait for the in-flight count to reach zero. -/
theorem poll_flush_ready_leaves_in_flight :
    (poll_flush twoInFlight (some true)).2 = .readyOk ∧
    (poll_flush twoInFlight (some true)).1.in_flight.length = 1 :=
  ⟨rfl, rfl⟩

/-! ## Transmit engine invariant lemmas -/

theorem submit_or_enqueue_spec (s : TxState)
    (hwin : s.in_flight.length ≤ TRANSFER_COUNT)
    (hback : s.pending_buffers ≠ [] → s.in_flight.length = TRANSFER_COUNT)
    (hfree : ∀ b ∈ s.free_buffers, b = []) :
    TxInv (submit_or_enqueue s) ∧
    accepted_bytes (submit_or_enqueue s) = accepted_bytes s ∧
    (submit_or_enqueue s).current_buffer = [] ∧
    (submit_or_enqueue s).pending_buffers.length ≤ s.pending_buffers.length + 1 := by
  have hcur : s.free_buffers.head?.getD [] = [] := by
    cases hf : s.free_buffers with
    | nil => rfl
    | cons b t => exact hfree b (by simp [hf])
  have hfree2 : ∀ b ∈ s.free_buffers.tail, b = [] :=
    fun b hb => hfree b (List.mem_of_mem_tail hb)
  have hSZ : 0 < TRANSFER_SIZE := by decide
  simp only [submit_or_enqueue]
  split
  · next h4 =>
    refine ⟨⟨by simpa using hwin, fun _ => by simpa using h4, ?_, by simpa using hfree2⟩,
      ?_, by simpa using hcur, by simp⟩
    · simpa [hcur] using hSZ
    · simp [accepted_bytes, hcur, List.flatten_append]
  · next h4 =>
    have hlt : s.in_flight.length < TRANSFER_COUNT :=
      Nat.lt_of_le_of_ne hwin h4
    have hpend : s.pending_buffers = [] := by
      by_contra hne
      exact h4 (hback hne)
    refine ⟨⟨?_, ?_, ?_, by simpa using hfree2⟩, ?_, by simpa using hcur, by simp⟩
    · simp only [List.length_append, List.length_cons, List.length_nil]
      omega
    · intro hne
      simp only [hpend] at hne
      exact absurd rfl hne
    · simpa [hcur] using hSZ
    · simp [accepted_bytes, hcur, hpend, List.flatten_append]

theorem push_byte_spec (s : TxState) (b : Nat) (h : TxInv s) :
    TxInv (push_byte s b) ∧
    accepted_bytes (push_byte s b) = accepted_bytes s ++ [b] ∧
    (push_byte s b).pending_buffers.length ≤ s.pending_buffers.length + 1 := by
  obtain ⟨hwin, hback, hcurlen, hfree⟩ := h
  simp only [push_byte]
  split
  · next heq =>
    have hs := submit_or_enqueue_spec { s with current_buffer := s.current_buffer ++ [b] }
      (by simpa using hwin) (by simpa using hback) (by simpa using hfree)
    refine ⟨hs.1, ?_, by simpa using hs.2.2.2⟩
    rw [hs.2.1]
    simp [accepted_bytes, List.append_assoc]
  · next hne =>
    refine ⟨⟨by simpa using hwin, by simpa using hback, ?_, by simpa using hfree⟩,
      ?_, by simp⟩
    · simp only [List.length_append, List.length_cons, List.length_nil] at hne ⊢
      omega
    · simp [accepted_bytes, List.append_assoc]

theorem foldl_push_byte_spec :
    ∀ (bytes : List Nat) (s : TxState), TxInv s →
      TxInv (bytes.foldl push_byte s) ∧
      accepted_bytes (bytes.foldl push_byte s) = accepted_bytes s ++ bytes
  | [], _, h => ⟨h, by simp⟩
  | b :: bytes, s, h => by
    have h1 := push_byte_spec s b h
    have h2 := foldl_push_byte_spec bytes (push_byte s b) h1.1
    refine ⟨by simpa using h2.1, ?_⟩
    simp only [List.foldl_cons]
    rw [h2.2, h1.2.1]
    simp

theorem start_send_spec (s : TxState) (chunk : List Sample) (h : TxInv s)
    (hready : s.in_flight.length < TRANSFER_COUNT) :
    ∃ t, start_send s chunk = .ok t ∧ TxInv t ∧
      accepted_bytes t = accepted_bytes s ++ samples_as_bytes chunk := by
  obtain ⟨hwin, hback, hcurlen, hfree⟩ := h
  simp only [start_send]
  rw [if_pos hready]
  split
  · next hcmp =>
    have hlt : (samples_as_bytes chunk).length <
        TRANSFER_SIZE - s.current_buffer.length := Nat.compare_eq_lt.mp hcmp
    refine ⟨_, rfl,
      ⟨by simpa using hwin, by simpa using hback, ?_, by simpa using hfree⟩, ?_⟩
    · simp only [List.length_append]
      omega
    · simp [accepted_bytes, List.append_assoc]
  · next hcmp =>
    have hs := submit_or_enqueue_spec
      { s with current_buffer := s.current_buffer ++ samples_as_bytes chunk }
      (by simpa using hwin) (by simpa using hback) (by simpa using hfree)
    refine ⟨_, rfl, hs.1, ?_⟩
    rw [hs.2.1]
    simp [accepted_bytes, List.append_assoc]
  · next hcmp =>
    have hf := foldl_push_byte_spec (samples_as_bytes chunk) s
      ⟨hwin, hback, hcurlen, hfree⟩
    exact ⟨_, rfl, hf.1, hf.2⟩


theorem TRANSFER_COUNT_eq : TRANSFER_COUNT = 4 := rfl

theorem poll_completion_ok_spec (s : TxState) (h : TxInv s) :
    TxInv (poll_completion s (some true)).1 ∧
    accepted_bytes (poll_completion s (some true)).1 = accepted_bytes s ∧
    (poll_completion s (some true)).1.current_buffer = s.current_buffer ∧
    (poll_completion s (some true)).2 ≠ .readyErr ∧
    ((poll_completion s (some true)).2 = .pending →
      (poll_completion s (some true)).1.pending_buffers.length + 1 =
        s.pending_buffers.length) ∧
    ((poll_completion s (some true)).2 = .readyOk →
      (poll_completion s (some true)).1.pending_buffers = [] ∧
      (poll_completion s (some true)).1.in_flight.length < TRANSFER_COUNT) := by
  obtain ⟨hwin, hback, hcurlen, hfree⟩ := h
  have hTC := TRANSFER_COUNT_eq
  by_cases h0 : s.in_flight.length = 0
  · have hpend : s.pending_buffers = [] := by
      by_contra hne
      have := hback hne
      omega
    have hc : poll_completion s (some true) = (s, .readyOk) := by
      simp [poll_completion, h0]
    rw [hc]
    refine ⟨⟨hwin, hback, hcurlen, hfree⟩, rfl, rfl, by simp, ?_, ?_⟩
    · intro habs
      simp at habs
    · intro _
      refine ⟨hpend, ?_⟩
      show s.in_flight.length < TRANSFER_COUNT
      omega
  · have h1 : 1 ≤ s.in_flight.length := Nat.one_le_iff_ne_zero.mpr h0
    have htail : s.in_flight.tail.length = s.in_flight.length - 1 :=
      List.length_tail s.in_flight
    have hfree1 : ∀ b ∈ ([] : List Nat) :: s.free_buffers, b = [] := by
      simp only [List.mem_cons]
      rintro b (rfl | hb)
      · rfl
      · exact hfree b hb
    rcases hpend : s.pending_buffers with _ | ⟨buf, rest⟩
    · have hc : poll_completion s (some true) =
          ({ s with in_flight := s.in_flight.tail,
                    free_buffers := [] :: s.free_buffers }, .readyOk) := by
        simp [poll_completion, h0, hpend]
      rw [hc]
      refine ⟨⟨?_, ?_, hcurlen, hfree1⟩, ?_, rfl, by simp, ?_, ?_⟩
      · show s.in_flight.tail.length ≤ TRANSFER_COUNT
        omega
      · intro hne
        exact absurd hpend hne
      · show accepted_bytes _ = accepted_bytes s
        simp [accepted_bytes, hpend]
      · intro habs
        simp at habs
      · intro _
        refine ⟨hpend, ?_⟩
        show s.in_flight.tail.length < TRANSFER_COUNT
        omega
    · have hfull : s.in_flight.length = TRANSFER_COUNT := by
        apply hback
        rw [hpend]
        exact List.cons_ne_nil buf rest
      have hc : poll_completion s (some true) =
          ({ s with in_flight := s.in_flight.tail ++ [buf],
                    free_buffers := [] :: s.free_buffers,
                    pending_buffers := rest,
                    submitted := s.submitted ++ [buf] }, .pending) := by
        simp [poll_completion, h0, hpend]
      rw [hc]
      refine ⟨⟨?_, ?_, hcurlen, hfree1⟩, ?_, rfl, by simp, ?_, ?_⟩
      · show (s.in_flight.tail ++ [buf]).length ≤ TRANSFER_COUNT
        simp only [List.length_append, List.length_cons, List.length_nil, htail]
        omega
      · intro _
        show (s.in_flight.tail ++ [buf]).length = TRANSFER_COUNT
        simp only [List.length_append, List.length_cons, List.length_nil, htail]
        omega
      · show accepted_bytes _ = accepted_bytes s
        simp [accepted_bytes, hpend, List.flatten_append, List.flatten_cons,
          List.append_assoc]
      · intro _
        show rest.length + 1 = (buf :: rest).length
        simp
      · intro habs
        simp at habs

theorem ready_loop_spec :
    ∀ (fuel : Nat) (s : TxState), TxInv s → s.pending_buffers.length < fuel →
      ∃ t, ready_loop fuel s = (t, .readyOk) ∧ TxInv t ∧
        accepted_bytes t = accepted_bytes s ∧
        t.in_flight.length < TRANSFER_COUNT
  | 0, _, _, hfuel => absurd hfuel (Nat.not_lt_zero _)
  | fuel + 1, s, h, hfuel => by
    by_cases hrdy : s.in_flight.length < TRANSFER_COUNT
    · have hpr : poll_ready s (some true) = (s, .readyOk) := by
        simp [poll_ready, hrdy]
      refine ⟨s, ?_, h, rfl, hrdy⟩
      simp [ready_loop, hpr]
    · obtain ⟨hI, hA, hC, hE, hP, hR⟩ := poll_completion_ok_spec s h
      have hpr : poll_ready s (some true) = poll_completion s (some true) := by
        simp [poll_ready, hrdy]
      rcases hr : (poll_completion s (some true)).2 with _ | _ | _
      · have hlen := hP hr
        obtain ⟨t, hrec, ht, hat, hwt⟩ :=
          ready_loop_spec fuel (poll_completion s (some true)).1 hI (by omega)
        refine ⟨t, ?_, ht, by rw [hat, hA], hwt⟩
        simp only [ready_loop, hpr, hr]
        exact hrec
      · refine ⟨(poll_completion s (some true)).1, ?_, hI, hA, (hR hr).2⟩
        simp only [ready_loop, hpr, hr]
      · exact absurd hr hE

theorem flush_drain_spec :
    ∀ (fuel : Nat) (s : TxState), TxInv s → s.current_buffer = [] →
      s.pending_buffers.length < fuel →
      ∃ t, flush_loop fuel s = (t, .readyOk) ∧ TxInv t ∧
        accepted_bytes t = accepted_bytes s ∧
        t.current_buffer = [] ∧ t.pending_buffers = []
  | 0, _, _, _, hfuel => absurd hfuel (Nat.not_lt_zero _)
  | fuel + 1, s, h, hcur, hfuel => by
    obtain ⟨hI, hA, hC, hE, hP, hR⟩ := poll_completion_ok_spec s h
    have hpf : poll_flush s (some true) = poll_completion s (some true) := by
      simp [poll_flush, hcur]
    rcases hr : (poll_completion s (some true)).2 with _ | _ | _
    · have hlen := hP hr
      obtain ⟨t, hrec, ht, hat, hct, hpt⟩ :=
        flush_drain_spec fuel (poll_completion s (some true)).1 hI
          (hC.trans hcur) (by omega)
      refine ⟨t, ?_, ht, by rw [hat, hA], hct, hpt⟩
      simp only [flush_loop, hpf, hr]
      exact hrec
    · refine ⟨(poll_completion s (some true)).1, ?_, hI, hA,
        hC.trans hcur, (hR hr).1⟩
      simp only [flush_loop, hpf, hr]
    · exact absurd hr hE

theorem flush_loop_spec (s : TxState) (h : TxInv s) :
    ∃ t, flush_loop (s.pending_buffers.length + 2) s = (t, .readyOk) ∧ TxInv t ∧
      accepted_bytes t = accepted_bytes s ∧
      t.current_buffer = [] ∧ t.pending_buffers = [] := by
  by_cases hcur : s.current_buffer = []
  · exact flush_drain_spec (s.pending_buffers.length + 2) s h hcur (by omega)
  · obtain ⟨hwin, hback, hcurlen, hfree⟩ := h
    have hsub := submit_or_enqueue_spec s hwin hback hfree
    have hpf : poll_flush s (some true) =
        poll_completion (submit_or_enqueue s) (some true) := by
      simp [poll_flush, hcur, hcurlen]
    obtain ⟨hI, hA, hC, hE, hP, hR⟩ :=
      poll_completion_ok_spec (submit_or_enqueue s) hsub.1
    show ∃ t, flush_loop (s.pending_buffers.length + 1 + 1) s = (t, .readyOk) ∧ _
    rcases hr : (poll_completion (submit_or_enqueue s) (some true)).2 with _ | _ | _
    · have hlen := hP hr
      have hplen := hsub.2.2.2
      obtain ⟨t, hrec, ht, hat, hct, hpt⟩ :=
        flush_drain_spec (s.pending_buffers.length + 1)
          (poll_completion (submit_or_enqueue s) (some true)).1 hI
          (hC.trans hsub.2.2.1) (by omega)
      refine ⟨t, ?_, ht, ?_, hct, hpt⟩
      · simp only [flush_loop, hpf, hr]
        exact hrec
      · rw [hat, hA, hsub.2.1]
    · refine ⟨(poll_completion (submit_or_enqueue s) (some true)).1, ?_, hI, ?_,
        hC.trans hsub.2.2.1, (hR hr).1⟩
      · simp only [flush_loop, hpf, hr]
      · rw [hA, hsub.2.1]
    · exact absurd hr hE

theorem accept_all_spec :
    ∀ (chunks : List (List Sample)) (s : TxState), TxInv s →
      ∃ t, accept_all s chunks = .ok t ∧ TxInv t ∧
        accepted_bytes t = accepted_bytes s ++ (chunks.map samples_as_bytes).flatten
  | [], s, h => ⟨s, rfl, h, by simp⟩
  | c :: cs, s, h => by
    obtain ⟨s1, hloop, h1, hacc1, hrdy⟩ :=
      ready_loop_spec (s.pending_buffers.length + 1) s h (by omega)
    obtain ⟨s2, hsend, h2, hacc2⟩ := start_send_spec s1 c h1 hrdy
    obtain ⟨t, hrec, ht, hacct⟩ := accept_all_spec cs s2 h2
    refine ⟨t, ?_, ht, ?_⟩
    · simp only [accept_all, hloop, hsend, hrec]
    · rw [hacct, hacc2, hacc1]
      simp [List.append_assoc]

theorem initTx_inv : TxInv initTx := by
  refine ⟨by decide, ?_, by decide, ?_⟩
  · intro hne
    exact absurd rfl hne
  · intro b hb
    simp [initTx] at hb

/-- Claim C1: feeding any sequence of sample chunks through start_send
with the readiness precondition driven to Ready before each call, then
driving poll_flush to Ready(Ok), hands the bulk-out queue a sequence
of buffers (immediate submissions and backlog submissions together, in
submission order) whose concatenated bytes are exactly the
concatenated bytes of the accepted chunks; the backlog and staging
buffer end empty, so no byte is duplicated, dropped or reordered. -/
theorem tx_fifo_preservation (chunks : List (List Sample)) :
    ∃ s t, accept_all initTx chunks = .ok s ∧
      flush_loop (s.pending_buffers.length + 2) s = (t, .readyOk) ∧
      t.submitted.flatten = (chunks.map samples_as_bytes).flatten ∧
      t.pending_buffers = [] ∧ t.current_buffer = [] := by
  obtain ⟨s, hacc, hs, haccb⟩ := accept_all_spec chunks initTx initTx_inv
  obtain ⟨t, hflush, ht, haccf, hcur, hpend⟩ := flush_loop_spec s hs
  refine ⟨s, t, hacc, hflush, ?_, hpend, hcur⟩
  have h1 : accepted_bytes t = (chunks.map samples_as_bytes).flatten := by
    rw [haccf, haccb]
    simp [accepted_bytes, initTx]
  rw [← h1]
  simp [accepted_bytes, hcur, hpend]

theorem second_flush_noop (t : TxState) (hcur : t.current_buffer = [])
    (hpend : t.pending_buffers = []) :
    ∃ t2, flush_loop (t.pending_buffers.length + 2) t = (t2, .readyOk) ∧
      t2.submitted = t.submitted ∧ t2.pending_buffers = t.pending_buffers ∧
      t2.current_buffer = t.current_buffer := by
  have hpf : poll_flush t (some true) = poll_completion t (some true) := by
    simp [poll_flush, hcur]
  show ∃ t2, flush_loop (t.pending_buffers.length + 1 + 1) t = (t2, .readyOk) ∧ _
  by_cases h0 : t.in_flight.length = 0
  · have hc : poll_completion t (some true) = (t, .readyOk) := by
      simp [poll_completion, h0]
    refine ⟨t, ?_, rfl, rfl, rfl⟩
    simp only [flush_loop, hpf, hc]
  · have hc : poll_completion t (some true) =
        ({ t with in_flight := t.in_flight.tail,
                  free_buffers := [] :: t.free_buffers }, .readyOk) := by
      simp [poll_completion, h0, hpend]
    exact ⟨{ t with in_flight := t.in_flight.tail, free_buffers := [] :: t.free_buffers },
      by simp only [flush_loop, hpf, hc], rfl, rfl, rfl⟩

/-- Claim C8: after a driven flush reaches Ready(Ok), a second driven
flush with no intervening accept also reaches Ready(Ok), hands no new
buffer to the bulk-out queue (the submission log is unchanged) and
appends nothing to the backlog (staging buffer and backlog stay as the
first flush left them: empty). -/
theorem flush_idempotent (chunks : List (List Sample)) :
    ∃ s t t2, accept_all initTx chunks = .ok s ∧
      flush_loop (s.pending_buffers.length + 2) s = (t, .readyOk) ∧
      flush_loop (t.pending_buffers.length + 2) t = (t2, .readyOk) ∧
      t2.submitted = t.submitted ∧ t2.pending_buffers = t.pending_buffers ∧
      t2.current_buffer = t.current_buffer := by
  obtain ⟨s, hacc, hs, _⟩ := accept_all_spec chunks initTx initTx_inv
  obtain ⟨t, hflush, ht, _, hcur, hpend⟩ := flush_loop_spec s hs
  obtain ⟨t2, hf2, hsub2, hpend2, hcur2⟩ := second_flush_noop t hcur hpend
  exact ⟨s, t, t2, hacc, hflush, hf2, hsub2, hpend2, hcur2⟩
